import Mathlib

/-!
Shallow embedding of `updateColumns` from
`src/deluge/ui/web/js/ext-extensions/tree/TreeGridNodeUIFix.js`.

The JavaScript method under study is (comments elided):

    updateColumns: function() {
        if (!this.rendered) return;
        var a = this.node.attributes,
            t = this.node.getOwnerTree(),
            cols = t.columns,
            c = cols[0];
        this.anchor.firstChild.innerHTML =
            (c.tpl ? c.tpl.apply(a) : a[c.dataIndex] || c.text);
        for(i = 1, len = cols.length; i < len; i++) {
            c = cols[i];
            this.elNode.childNodes[i].firstChild.innerHTML =
                (c.tpl ? c.tpl.apply(a) : a[c.dataIndex] || c.text);
        }
    }

Modelling decisions, each traceable to the source:
* Attribute values are JavaScript values (string / number / boolean /
  undefined); `a[k]` on a missing key yields `undefined`.
* `a[c.dataIndex] || c.text` keeps the attribute value when it is truthy
  (JavaScript truthiness) and falls back to the column text otherwise; the
  subsequent `innerHTML` assignment coerces the chosen value to a string.
* `this.anchor.firstChild.innerHTML` is the first cell slot (`anchorCell`);
  `this.elNode.childNodes[i].firstChild.innerHTML` for `i ≥ 1` are the
  remaining slots (`childCells`, positional, index 0 reserved).
* A runtime fault (reading `cols[0]` of an empty column list, or
  `childNodes[i]` beyond the existing cells) is modelled as `none`.
* The loop variables `i` and `len` are not declared with `var`, so the
  original writes them as globals: the state carries them as `gi`/`glen`.
-/

/-- A JavaScript value as it can occur in a row's attribute mapping. -/
inductive JSVal where
  | str (s : String)
  | num (n : Int)
  | bool (b : Bool)
  | undefined
deriving DecidableEq, Repr

/-- JavaScript truthiness of a value: `""`, `0`, `false`, `undefined`
are falsy, everything else modelled here is truthy. -/
def JSVal.truthy : JSVal → Bool
  | .str s => s != ""
  | .num n => n != 0
  | .bool b => b
  | .undefined => false

/-- String coercion applied by the `innerHTML` assignment. -/
def JSVal.display : JSVal → String
  | .str s => s
  | .num n => toString n
  | .bool b => if b then "true" else "false"
  | .undefined => "undefined"

/-- The row's attribute mapping `this.node.attributes`. -/
abbrev Attrs := List (String × JSVal)

/-- Property read `a[k]`: the first binding for `k`, `undefined` if absent. -/
def attrGet (a : Attrs) (k : String) : JSVal :=
  match a.find? (fun p => p.1 == k) with
  | some p => p.2
  | none => JSVal.undefined

/-- One column definition of the owning tree: data-index key, optional
template (the `c.tpl.apply(a)` call, producing the cell markup string),
and static fallback `text`. -/
structure Column where
  dataIndex : String
  tpl : Option (Attrs → String)
  text : String

/-- The cell-text expression
`(c.tpl ? c.tpl.apply(a) : a[c.dataIndex] || c.text)`, followed by the
string coercion of the `innerHTML` assignment. -/
def cellText (c : Column) (a : Attrs) : String :=
  match c.tpl with
  | some tpl => tpl a
  | none =>
      let v := attrGet a c.dataIndex
      if v.truthy then v.display else c.text

/-- The slice of the node UI that `updateColumns` reads and writes:
the `rendered` flag, the node's attributes, the owning tree's columns,
the first cell slot (`anchor.firstChild.innerHTML`) and the positional
child cells (`elNode.childNodes[i].firstChild.innerHTML`). -/
structure NodeUI where
  rendered : Bool
  attributes : Attrs
  columns : List Column
  anchorCell : String
  childCells : List String

/-- Full mutable state: the node UI plus the two undeclared (hence
global) loop variables `i` and `len`; `none` means "never assigned". -/
structure JSState where
  ui : NodeUI
  gi : Option Nat
  glen : Option Nat

/-- The loop
`for(i = 1, len = cols.length; i < len; i++) childNodes[i]... = ...`:
`cs` are the columns still to process, `i` the current index into the
child-cell list. Accessing a missing `childNodes[i]` faults (`none`). -/
def updateLoop (a : Attrs) : List Column → Nat → List String → Option (List String)
  | [], _, cells => some cells
  | c :: cs, i, cells =>
      if i < cells.length then
        updateLoop a cs (i + 1) (cells.set i (cellText c a))
      else
        none

/-- The whole `updateColumns` method as a state transformer. `none` is a
runtime fault (empty column list, or fewer child cells than columns);
`some` carries the updated state. After a rendered update the global
loop variables hold `i = len = cols.length` (the loop body never runs
when `len = 1`, leaving `i` at its initial value `1 = len`). -/
def updateColumns (s : JSState) : Option JSState :=
  if s.ui.rendered = true then
    match s.ui.columns with
    | [] => none
    | c :: rest =>
        match updateLoop s.ui.attributes rest 1 s.ui.childCells with
        | none => none
        | some cells =>
            some { ui := { s.ui with
                           anchorCell := cellText c s.ui.attributes,
                           childCells := cells },
                   gi := some (rest.length + 1),
                   glen := some (rest.length + 1) }
  else
    some s

/-- Cell slot `i` of a row: slot 0 is the first-column cell reached
through `anchor.firstChild`, slot `i ≥ 1` is `elNode.childNodes[i]`. -/
def cellSlot (ui : NodeUI) (i : Nat) : String :=
  if i = 0 then ui.anchorCell else ui.childCells.getD i ""

/-! ### Concrete rows used in scenarios and witnesses -/

/-- A trivial template producing the constant markup string `"T"`. -/
def tplT : Attrs → String := fun _ => "T"

/-- Template-free column reading the `name` attribute. -/
def wCol0 : Column := ⟨"name", none, "Name"⟩

/-- Template-free column reading the `zero` attribute. -/
def wCol1 : Column := ⟨"zero", none, "Zero"⟩

/-- Column carrying the template `tplT`. -/
def wCol2 : Column := ⟨"tp", some tplT, "F"⟩

/-- Attributes holding a truthy string and the falsy number `0`. -/
def wAttrs : Attrs := [("name", JSVal.str "file.txt"), ("zero", JSVal.num 0)]

/-- A rendered three-column row before an update. -/
def wState : JSState :=
  ⟨⟨true, wAttrs, [wCol0, wCol1, wCol2], "", ["", "", ""]⟩, none, none⟩

/-- The state `updateColumns` produces from `wState`. -/
def wResult : JSState :=
  ⟨⟨true, wAttrs, [wCol0, wCol1, wCol2], "file.txt", ["", "Zero", "T"]⟩,
   some 3, some 3⟩

/-- An unrendered row with nonempty cell texts. -/
def uState : JSState :=
  ⟨⟨false, wAttrs, [wCol0, wCol1], "keep0", ["keep1", "keep2"]⟩, none, none⟩

/-- The spec scenario `{name: "file.txt", size: 1024}` with two
template-free columns. -/
def c8State : JSState :=
  ⟨⟨true, [("name", JSVal.str "file.txt"), ("size", JSVal.num 1024)],
    [⟨"name", none, "Name"⟩, ⟨"size", none, "Size"⟩], "", ["", ""]⟩,
   none, none⟩

/-- The spec scenario `{name: "", size: 1024}` with the same columns. -/
def c9State : JSState :=
  ⟨⟨true, [("name", JSVal.str ""), ("size", JSVal.num 1024)],
    [⟨"name", none, "Name"⟩, ⟨"size", none, "Size"⟩], "", ["", ""]⟩,
   none, none⟩

/-- The same columns with `size` bound to the falsy number `0`. -/
def cxState : JSState :=
  ⟨⟨true, [("name", JSVal.str "file.txt"), ("size", JSVal.num 0)],
    [⟨"name", none, "Name"⟩, ⟨"size", none, "Size"⟩], "", ["", ""]⟩,
   none, none⟩

/-! ### Lemmas about the remaining-columns loop -/

/-- The loop never changes the number of child cells. -/
theorem updateLoop_length (a : Attrs) (cs : List Column) (i : Nat)
    (cells cells₂ : List String)
    (h : updateLoop a cs i cells = some cells₂) :
    cells₂.length = cells.length := by
  induction cs generalizing i cells with
  | nil =>
      simp only [updateLoop, Option.some.injEq] at h
      simp [h]
  | cons c cs ih =>
      simp only [updateLoop] at h
      split at h
      · have := ih _ _ h
        simpa using this
      · exact absurd h (by simp)

/-- Indices below the loop counter are left untouched. -/
theorem updateLoop_lt (a : Attrs) (cs : List Column) (i : Nat)
    (cells cells₂ : List String)
    (h : updateLoop a cs i cells = some cells₂)
    (j : Nat) (hj : j < i) :
    cells₂[j]? = cells[j]? := by
  induction cs generalizing i cells with
  | nil =>
      simp only [updateLoop, Option.some.injEq] at h
      simp [h]
  | cons c cs ih =>
      simp only [updateLoop] at h
      split at h
      · have hrec := ih (i + 1) _ h (by omega)
        rwa [List.getElem?_set_ne (by omega : i ≠ j)] at hrec
      · exact absurd h (by simp)

/-- Each column still to process writes its cell text into the child
cell at the matching index. -/
theorem updateLoop_getElem (a : Attrs) (cs : List Column) (i : Nat)
    (cells cells₂ : List String)
    (h : updateLoop a cs i cells = some cells₂)
    (k : Nat) (hk : k < cs.length) :
    cells₂[i + k]? = some (cellText (cs.get ⟨k, hk⟩) a) := by
  induction cs generalizing i cells k with
  | nil => exact absurd hk (by simp)
  | cons c cs ih =>
      simp only [updateLoop] at h
      split at h
      · rename_i hi
        cases k with
        | zero =>
            have hpre := updateLoop_lt a cs (i + 1) _ _ h i (by omega)
            simpa [List.getElem?_set_self hi] using hpre
        | succ k =>
            have hrec := ih (i + 1) _ h k (by simpa using hk)
            have harith : i + 1 + k = i + (k + 1) := by omega
            rw [harith] at hrec
            exact hrec
      · exact absurd h (by simp)

/-- Writing back a value a list already holds is the identity. -/
theorem set_getElem_self {α : Type} (l : List α) (i : Nat) (v : α)
    (h : l[i]? = some v) : l.set i v = l := by
  induction l generalizing i with
  | nil => simp at h
  | cons x xs ih =>
      cases i with
      | zero =>
          simp only [List.getElem?_cons_zero, Option.some.injEq] at h
          simp [h]
      | succ n =>
          simp only [List.getElem?_cons_succ] at h
          simp [ih n h]

/-- Running the loop again over its own output changes nothing. -/
theorem updateLoop_idem (a : Attrs) (cs : List Column) (i : Nat)
    (cells cells₂ : List String)
    (h : updateLoop a cs i cells = some cells₂) :
    updateLoop a cs i cells₂ = some cells₂ := by
  induction cs generalizing i cells with
  | nil =>
      simp only [updateLoop, Option.some.injEq] at h
      subst h
      rfl
  | cons c cs ih =>
      simp only [updateLoop] at h
      split at h
      · rename_i hi
        have hlen : cells₂.length = cells.length := by
          have := updateLoop_length a cs (i + 1) _ _ h
          simpa using this
        have hi₂ : i < cells₂.length := by omega
        have hval : cells₂[i]? = some (cellText c a) := by
          have hpre := updateLoop_lt a cs (i + 1) _ _ h i (by omega)
          simpa [List.getElem?_set_self hi] using hpre
        have hset : cells₂.set i (cellText c a) = cells₂ :=
          set_getElem_self _ _ _ hval
        simp only [updateLoop, if_pos hi₂, hset]
        exact ih (i + 1) _ h
      · exact absurd h (by simp)

/-! ### Inversion of `updateColumns` -/

/-- A successful update of a rendered row decomposes into the nonempty
column list, a successful loop run, and the literal result state. -/
theorem updateColumns_inv (s s₂ : JSState)
    (hr : s.ui.rendered = true)
    (hu : updateColumns s = some s₂) :
    ∃ c rest cells,
      s.ui.columns = c :: rest ∧
      updateLoop s.ui.attributes rest 1 s.ui.childCells = some cells ∧
      s₂ = { ui := { s.ui with
                     anchorCell := cellText c s.ui.attributes,
                     childCells := cells },
             gi := some (rest.length + 1),
             glen := some (rest.length + 1) } := by
  obtain ⟨⟨rend, attrs, cols, anchor, cc⟩, gi, glen⟩ := s
  simp only at hr hu ⊢
  subst hr
  cases cols with
  | nil => exact absurd hu (by simp [updateColumns])
  | cons c rest =>
      cases hloop : updateLoop attrs rest 1 cc with
      | none =>
          rw [updateColumns] at hu
          simp [hloop] at hu
      | some cells =>
          rw [updateColumns] at hu
          simp only [hloop, if_pos, Option.some.injEq] at hu
          exact ⟨c, rest, cells, rfl, hloop, hu.symm⟩

/-- Slot characterisation: after a successful update of a rendered row,
slot `i` holds exactly column `i`'s cell text. -/
theorem updateColumns_slot (s s₂ : JSState) (c : Column)
    (hr : s.ui.rendered = true)
    (hu : updateColumns s = some s₂)
    (i : Nat) (hc : s.ui.columns[i]? = some c) :
    cellSlot s₂.ui i = cellText c s.ui.attributes := by
  obtain ⟨c0, rest, cells, hcols, hloop, hs⟩ := updateColumns_inv s s₂ hr hu
  subst hs
  cases i with
  | zero =>
      rw [hcols] at hc
      simp only [List.getElem?_cons_zero, Option.some.injEq] at hc
      subst hc
      simp [cellSlot]
  | succ k =>
      rw [hcols] at hc
      simp only [List.getElem?_cons_succ] at hc
      have hk : k < rest.length := by
        cases hlt : Nat.decLt k rest.length with
        | isTrue h => exact h
        | isFalse h =>
            rw [List.getElem?_eq_none (by omega)] at hc
            exact absurd hc (by simp)
      have hval := updateLoop_getElem s.ui.attributes rest 1 _ _ hloop k hk
      have hget : rest.get ⟨k, hk⟩ = c := by
        have := List.getElem?_eq_getElem hk
        rw [this] at hc
        simpa [List.get_eq_getElem] using hc
      rw [hget] at hval
      have : (1 : Nat) + k = k + 1 := by omega
      rw [this] at hval
      simp [cellSlot, List.getD_eq_getElem?_getD, hval]

/-- The child-cell list itself holds column `k + 1`'s text at index
`k + 1` (in range, hence a `some`). -/
theorem updateColumns_childCell (s s₂ : JSState) (c : Column)
    (hr : s.ui.rendered = true)
    (hu : updateColumns s = some s₂)
    (k : Nat) (hc : s.ui.columns[k + 1]? = some c) :
    s₂.ui.childCells[k + 1]? = some (cellText c s.ui.attributes) := by
  obtain ⟨c0, rest, cells, hcols, hloop, hs⟩ := updateColumns_inv s s₂ hr hu
  subst hs
  rw [hcols] at hc
  simp only [List.getElem?_cons_succ] at hc
  have hk : k < rest.length := by
    cases hlt : Nat.decLt k rest.length with
    | isTrue h => exact h
    | isFalse h =>
        rw [List.getElem?_eq_none (by omega)] at hc
        exact absurd hc (by simp)
  have hval := updateLoop_getElem s.ui.attributes rest 1 _ _ hloop k hk
  have hget : rest.get ⟨k, hk⟩ = c := by
    have := List.getElem?_eq_getElem hk
    rw [this] at hc
    simpa [List.get_eq_getElem] using hc
  rw [hget] at hval
  have harith : (1 : Nat) + k = k + 1 := by omega
  rw [harith] at hval
  simpa using hval

/-- The unrendered guard: the method returns before touching anything,
global loop variables included. -/
theorem updateColumns_noop (s : JSState) (hr : s.ui.rendered = false) :
    updateColumns s = some s := by
  unfold updateColumns
  rw [hr]
  rfl

/-! ### Claims -/

/-- C1: for every rendered row and every column of its owning tree,
`updateColumns` computes the cell's display text with the three-tier
precedence — `template.apply(attributes)` if the column has a template,
else the attribute at `dataIndex` when truthy, else the column's static
fallback `text` — and writes it into the column's cell slot. -/
theorem C1_three_tier_precedence (s s₂ : JSState) (c : Column)
    (hr : s.ui.rendered = true)
    (hu : updateColumns s = some s₂)
    (i : Nat) (hc : s.ui.columns[i]? = some c) :
    cellSlot s₂.ui i =
      match c.tpl with
      | some tpl => tpl s.ui.attributes
      | none =>
          if (attrGet s.ui.attributes c.dataIndex).truthy
          then (attrGet s.ui.attributes c.dataIndex).display
          else c.text := by
  rw [updateColumns_slot s s₂ c hr hu i hc]
  simp only [cellText]

/-- C1 witness: the concrete three-column row, checked at column 0. -/
theorem C1_three_tier_precedence_witness :
    wState.ui.rendered = true ∧
    updateColumns wState = some wResult ∧
    wState.ui.columns[0]? = some wCol0 ∧
    cellSlot wResult.ui 0 = "file.txt" :=
  ⟨rfl, rfl, rfl, C1_three_tier_precedence wState wResult wCol0 rfl rfl 0 rfl⟩

/-- C2: for every row whose `rendered` flag is false, `updateColumns`
returns the state unchanged — every cell text is preserved and no other
state (attributes, columns, globals) changes; it is a silent no-op. -/
theorem C2_unrendered_noop (s : JSState) (hr : s.ui.rendered = false) :
    updateColumns s = some s :=
  updateColumns_noop s hr

/-- C2 witness: the unrendered row with nonempty cell texts. -/
theorem C2_unrendered_noop_witness :
    uState.ui.rendered = false ∧ updateColumns uState = some uState :=
  ⟨rfl, C2_unrendered_noop uState rfl⟩

/-- C3: for every rendered row and every column with a configured
template, after `updateColumns` the cell's text equals
`template.apply(attributes)` exactly, regardless of `dataIndex` or
fallback text. -/
theorem C3_template_applies (s s₂ : JSState) (c : Column)
    (tpl : Attrs → String)
    (hr : s.ui.rendered = true)
    (hu : updateColumns s = some s₂)
    (i : Nat) (hc : s.ui.columns[i]? = some c)
    (ht : c.tpl = some tpl) :
    cellSlot s₂.ui i = tpl s.ui.attributes := by
  rw [updateColumns_slot s s₂ c hr hu i hc]
  simp [cellText, ht]

/-- C3 witness: the template column `wCol2` of the concrete row. -/
theorem C3_template_applies_witness :
    wState.ui.rendered = true ∧
    updateColumns wState = some wResult ∧
    wState.ui.columns[2]? = some wCol2 ∧
    wCol2.tpl = some tplT ∧
    cellSlot wResult.ui 2 = tplT wState.ui.attributes :=
  ⟨rfl, rfl, rfl, rfl,
   C3_template_applies wState wResult wCol2 tplT rfl rfl 2 rfl rfl⟩

/-- C8: the scenario row `{name: "file.txt", size: 1024}` with two
template-free columns yields cell 0 = `"file.txt"` and
cell 1 = `"1024"` after `updateColumns`. -/
theorem C8_scenario :
    (updateColumns c8State).map (fun t => (cellSlot t.ui 0, cellSlot t.ui 1))
      = some ("file.txt", "1024") := by decide

/-- C9: the scenario row `{name: "", size: 1024}` with the same columns
yields the fallback `"Name"` in cell 0 (the empty string is falsy) and
`"1024"` in cell 1. -/
theorem C9_scenario_empty_string :
    (updateColumns c9State).map (fun t => (cellSlot t.ui 0, cellSlot t.ui 1))
      = some ("Name", "1024") := by decide

/-- C4 counterexample: in `cxState` the attribute `size` is bound to the
number `0` — present (not `undefined`) and not the empty string — yet
`updateColumns` writes the fallback `"Size"` into cell 1, not the
value's string form `"0"`: "present and non-empty implies the attribute
value is shown" fails on falsy non-string values. -/
theorem C4_counterexample_falsy_number :
    attrGet cxState.ui.attributes "size" = JSVal.num 0 ∧
    JSVal.num 0 ≠ JSVal.undefined ∧
    JSVal.num 0 ≠ JSVal.str "" ∧
    (JSVal.num 0).display = "0" ∧
    (updateColumns cxState).map (fun t => cellSlot t.ui 1) = some "Size" ∧
    "Size" ≠ "0" := by decide

/-- C4 (amended): for every rendered row and every column without a
template, the cell shows the attribute value exactly when that value is
truthy in the JavaScript sense; otherwise — absent, empty string, or any
other falsy value such as `0` or `false` — it shows the fallback text. -/
theorem C4_amended_truthy_or_fallback (s s₂ : JSState) (c : Column)
    (hr : s.ui.rendered = true)
    (hu : updateColumns s = some s₂)
    (i : Nat) (hc : s.ui.columns[i]? = some c)
    (ht : c.tpl = none) :
    cellSlot s₂.ui i =
      if (attrGet s.ui.attributes c.dataIndex).truthy
      then (attrGet s.ui.attributes c.dataIndex).display
      else c.text := by
  rw [updateColumns_slot s s₂ c hr hu i hc]
  simp [cellText, ht]

/-- C4 witness: column 0 of the concrete row has a truthy string
attribute, so the cell shows the attribute value. -/
theorem C4_amended_truthy_or_fallback_witness :
    wState.ui.rendered = true ∧
    updateColumns wState = some wResult ∧
    wState.ui.columns[0]? = some wCol0 ∧
    wCol0.tpl = none ∧
    cellSlot wResult.ui 0 = "file.txt" :=
  ⟨rfl, rfl, rfl, rfl,
   C4_amended_truthy_or_fallback wState wResult wCol0 rfl rfl 0 rfl rfl⟩

/-- C5: cell `i` receives exactly column `i`'s computed text for every
`i` in range — column 0 through the distinct first-cell (anchor) path,
and each column `i ≥ 1` at the same positional index among the row's
child cells. -/
theorem C5_positional_mapping (s s₂ : JSState) (c : Column)
    (hr : s.ui.rendered = true)
    (hu : updateColumns s = some s₂)
    (i : Nat) (hc : s.ui.columns[i]? = some c) :
    (i = 0 → s₂.ui.anchorCell = cellText c s.ui.attributes) ∧
    (1 ≤ i → s₂.ui.childCells[i]? = some (cellText c s.ui.attributes)) := by
  constructor
  · intro h0
    subst h0
    have := updateColumns_slot s s₂ c hr hu 0 hc
    simpa [cellSlot] using this
  · intro h1
    cases i with
    | zero => exact absurd h1 (by omega)
    | succ k => exact updateColumns_childCell s s₂ c hr hu k hc

/-- C5 witness: the concrete row checked at column 1. -/
theorem C5_positional_mapping_witness :
    wState.ui.rendered = true ∧
    updateColumns wState = some wResult ∧
    wState.ui.columns[1]? = some wCol1 ∧
    ((1 = 0 → wResult.ui.anchorCell = cellText wCol1 wState.ui.attributes) ∧
     (1 ≤ 1 → wResult.ui.childCells[1]? =
        some (cellText wCol1 wState.ui.attributes))) :=
  ⟨rfl, rfl, rfl, C5_positional_mapping wState wResult wCol1 rfl rfl 1 rfl⟩

/-- C6: `updateColumns` is idempotent — a successful call yields a state
that the next call maps to itself, so every cell keeps the text the
first call gave it (attributes and columns are part of that state and
hence unchanged). -/
theorem C6_idempotent (s s₂ : JSState)
    (hu : updateColumns s = some s₂) :
    updateColumns s₂ = some s₂ := by
  obtain ⟨⟨rend, attrs, cols, anchor, cc⟩, gi0, glen0⟩ := s
  cases rend with
  | false =>
      have hnoop := updateColumns_noop ⟨⟨false, attrs, cols, anchor, cc⟩, gi0, glen0⟩ rfl
      rw [hnoop] at hu
      simp only [Option.some.injEq] at hu
      rw [← hu]
      exact hnoop
  | true =>
      obtain ⟨c, rest, cells, hcols, hloop, hs⟩ :=
        updateColumns_inv _ _ rfl hu
      simp only at hcols hloop hs
      subst hcols
      subst hs
      have hidem := updateLoop_idem attrs rest 1 cc cells hloop
      rw [updateColumns]
      simp [hidem]

/-- C6 witness: the concrete row, updated twice. -/
theorem C6_idempotent_witness :
    updateColumns wState = some wResult ∧
    updateColumns wResult = some wResult :=
  ⟨rfl, C6_idempotent wState wResult rfl⟩

/-- C7 counterexample: the loop variables `i` and `len` are not declared
with `var`, so a rendered update writes them as globals — state other
than cell text changes: both globals go from unassigned to the column
count `2` on the two-column row `cxState`. -/
theorem C7_counterexample_global_loop_vars :
    cxState.gi = none ∧ cxState.glen = none ∧
    (updateColumns cxState).map (fun t => (t.gi, t.glen))
      = some (some 2, some 2) := by decide

/-- C7 (amended): besides the displayed cell text, `updateColumns` also
writes the undeclared global loop variables `i` and `len`; everything
else is untouched — the rendered flag, the row's attribute mapping, the
tree's column definitions, and the cell structure (the number of child
cells) are unchanged, no value is returned and no event is emitted. -/
theorem C7_frame_amended (s s₂ : JSState)
    (hu : updateColumns s = some s₂) :
    s₂.ui.rendered = s.ui.rendered ∧
    s₂.ui.attributes = s.ui.attributes ∧
    s₂.ui.columns = s.ui.columns ∧
    s₂.ui.childCells.length = s.ui.childCells.length := by
  cases hr : s.ui.rendered with
  | false =>
      rw [updateColumns_noop s hr] at hu
      simp only [Option.some.injEq] at hu
      rw [← hu]
      exact ⟨hr, rfl, rfl, rfl⟩
  | true =>
      obtain ⟨c, rest, cells, hcols, hloop, hs⟩ := updateColumns_inv s s₂ hr hu
      subst hs
      refine ⟨hr, rfl, rfl, ?_⟩
      simpa using updateLoop_length s.ui.attributes rest 1 _ _ hloop

/-- C7 witness: the frame conditions at the concrete row. -/
theorem C7_frame_amended_witness :
    updateColumns wState = some wResult ∧
    (wResult.ui.rendered = wState.ui.rendered ∧
     wResult.ui.attributes = wState.ui.attributes ∧
     wResult.ui.columns = wState.ui.columns ∧
     wResult.ui.childCells.length = wState.ui.childCells.length) :=
  ⟨rfl, C7_frame_amended wState wResult rfl⟩

/-- C10: for every rendered row and every template-free column whose
attribute value is present (not `undefined`) but falsy — such as the
number `0` or `false` — `updateColumns` writes the column's fallback
text, because the attribute-vs-fallback choice is JavaScript truthiness
of `a[c.dataIndex]`. -/
theorem C10_falsy_attribute_fallback (s s₂ : JSState) (c : Column)
    (hr : s.ui.rendered = true)
    (hu : updateColumns s = some s₂)
    (i : Nat) (hc : s.ui.columns[i]? = some c)
    (ht : c.tpl = none)
    (hp : attrGet s.ui.attributes c.dataIndex ≠ JSVal.undefined)
    (hf : (attrGet s.ui.attributes c.dataIndex).truthy = false) :
    cellSlot s₂.ui i = c.text := by
  rw [updateColumns_slot s s₂ c hr hu i hc]
  simp [cellText, ht, hf]

/-- C10 witness: column 1 of the concrete row reads the attribute
`zero = 0`, present but falsy, and the cell shows the fallback. -/
theorem C10_falsy_attribute_fallback_witness :
    wState.ui.rendered = true ∧
    updateColumns wState = some wResult ∧
    wState.ui.columns[1]? = some wCol1 ∧
    wCol1.tpl = none ∧
    attrGet wState.ui.attributes wCol1.dataIndex ≠ JSVal.undefined ∧
    (attrGet wState.ui.attributes wCol1.dataIndex).truthy = false ∧
    cellSlot wResult.ui 1 = "Zero" :=
  ⟨rfl, rfl, rfl, rfl, by decide, rfl,
   C10_falsy_attribute_fallback wState wResult wCol1 rfl rfl 1 rfl rfl
     (by decide) rfl⟩

/-- C1 counterexample: the tier-2 condition "the attribute value if
present" fails on the code — in `cxState` the attribute `size` is
present (bound to the number `0`, not `undefined`), the column has no
template, yet `updateColumns` writes the fallback `"Size"` into cell 1
rather than the value's string form `"0"`, because the code tests
truthiness, not presence. -/
theorem C1_counterexample_present_falsy :
    attrGet cxState.ui.attributes "size" = JSVal.num 0 ∧
    JSVal.num 0 ≠ JSVal.undefined ∧
    (updateColumns cxState).map (fun t => cellSlot t.ui 1) = some "Size" ∧
    (JSVal.num 0).display = "0" ∧
    "Size" ≠ "0" := by decide
